import Mathlib

/-!
# Verification of the pyobcomp comparison engine

A shallow embedding of the `pyobcomp` structural object-comparison library
(`src/pyobcomp/comparer.py`, `src/pyobcomp/models.py`, and the older
iteration `src/pyobcomp/comparator.py`), together with theorems settling
the frozen claims about its specification.

Modelling conventions:
* Python values (the JSON-like data handled by the engine) are the
  inductive `Value`; Python `int`/`float` are modelled as `Int`/`Rat`
  (the engine's tolerance arithmetic is exact rational arithmetic here;
  the claims under study do not depend on binary floating-point rounding).
* Python `bool` is a separate constructor, matching the code's explicit
  `not isinstance(value, bool)` exclusion in `_is_numerical` and the fact
  that `type(True) != type(1)`.
* `dict`s are insertion-ordered association lists with distinct keys (as
  produced by Python); `set(expected) | set(actual)` iteration order,
  which CPython fixes per process by hash, is modelled deterministically
  as "keys of `expected` in order, then new keys of `actual`".
* Recursive functions are defined structurally over an explicit bound
  (`vsize`-based) so that all definitions compute by kernel reduction;
  the bound is provably sufficient (`compareValuesFuel_stable`,
  `matchPiecesF_congr`).
-/

set_option maxHeartbeats 1000000
set_option linter.unusedTactic false
set_option linter.unreachableTactic false

namespace PyObComp

/-- A Python value as handled by the comparison engine: `None`, `bool`,
`int`, `float` (modelled as `Rat`), `str`, `list`, `dict`
(insertion-ordered association list). -/
inductive Value where
  | null : Value
  | bool (b : Bool) : Value
  | int (n : Int) : Value
  | float (q : Rat) : Value
  | str (s : String) : Value
  | list (xs : List Value) : Value
  | dict (xs : List (String × Value)) : Value

mutual

/-- Structural size of a value, used as a (provably sufficient) bound for
the fueled recursions below. -/
def vsize : Value → Nat
  | .null => 1
  | .bool _ => 1
  | .int _ => 1
  | .float _ => 1
  | .str _ => 1
  | .list xs => 1 + vsizeL xs
  | .dict xs => 1 + vsizeD xs

/-- Size of a list of values. -/
def vsizeL : List Value → Nat
  | [] => 1
  | x :: xs => 1 + vsize x + vsizeL xs

/-- Size of a dict association list. -/
def vsizeD : List (String × Value) → Nat
  | [] => 1
  | kv :: xs => 1 + vsize kv.2 + vsizeD xs

end

/-- `ComparisonStatus` from `models.py` (also duplicated in `config.py`). -/
inductive ComparisonStatus where
  | identical
  | in_tolerance
  | ignored
  | optional_missing
  | outside_tolerance
  | missing_required
  | type_mismatch
  | value_mismatch
  | object_missing
  | array_length_mismatch
deriving DecidableEq, Repr

/-- The string value of each `ComparisonStatus` enum member
(`FieldResult` stores statuses as these strings because of
`use_enum_values=True`). -/
def ComparisonStatus.value : ComparisonStatus → String
  | .identical => "identical"
  | .in_tolerance => "in_tolerance"
  | .ignored => "ignored"
  | .optional_missing => "optional_missing"
  | .outside_tolerance => "outside_tolerance"
  | .missing_required => "missing_required"
  | .type_mismatch => "type_mismatch"
  | .value_mismatch => "value_mismatch"
  | .object_missing => "object_missing"
  | .array_length_mismatch => "array_length_mismatch"

/-- `FieldResult` from `models.py`: the record for a single field
comparison. -/
structure FieldResult where
  name : String
  passed : Bool
  status : ComparisonStatus
  expected : Value
  actual : Value
  reason : String
  tolerance_applied : Option String
  expected_type : Option String
  actual_type : Option String

/-- `ToleranceConfig` from `models.py`: numeric tolerance settings. -/
structure ToleranceConfig where
  percentage : Option Rat
  absolute : Option Rat
deriving DecidableEq, Repr

/-- `FieldConfig` from `models.py`: behavior settings for a field. -/
structure FieldConfig where
  required : Bool := true
  ignore : Bool := false
  text_validation : Bool := false
deriving DecidableEq, Repr

/-- A rule stored in the comparer's `tolerances` mapping: either a
`ToleranceConfig` or a `FieldConfig`.  The code distinguishes them with
`isinstance` / `hasattr` checks, which the two constructors model. -/
inductive RuleConfig where
  | tol (c : ToleranceConfig)
  | beh (c : FieldConfig)
deriving DecidableEq, Repr

/-- `ComparisonOptions` from `models.py` (the logging sub-config is
irrelevant to the claims and omitted). -/
structure ComparisonOptions where
  normalize_types : Bool := false
deriving DecidableEq, Repr

/-- The `Comparer` engine state: the `tolerances` path-pattern mapping
(insertion-ordered, distinct keys) and global options. -/
structure Comparer where
  tolerances : List (String × RuleConfig)
  options : ComparisonOptions

/-! ## String replacement (Python `str.replace`) -/

/-- Boolean prefix test on character lists. -/
def isPre : List Char → List Char → Bool
  | [], _ => true
  | _ :: _, [] => false
  | p :: ps, c :: cs => p == c && isPre ps cs

/-- Fueled worker for `replaceAll`; the fuel (the input length) makes the
recursion structural.  When the pattern matches at the current position,
the whole pattern (head plus `pat.length - 1` further characters) is
consumed and replaced, exactly like Python's left-to-right non-overlapping
`str.replace`. -/
def replaceAllF (pat rep : List Char) : Nat → List Char → List Char
  | _, [] => []
  | 0, s => s
  | n + 1, c :: cs =>
    if isPre pat (c :: cs) && !pat.isEmpty then
      rep ++ replaceAllF pat rep n (List.drop (pat.length - 1) cs)
    else
      c :: replaceAllF pat rep n cs

/-- Python `s.replace(pat, rep)` for a non-empty `pat` (the engine only
replaces the non-empty patterns `"."` and `"\\.*"`; an empty pattern is a
no-op here, unlike Python's interleaving, and is never used). -/
def replaceAll (pat rep s : List Char) : List Char :=
  replaceAllF pat rep s.length s

/-! ## A regex fragment (Python `re`) sufficient for the converted patterns

`_path_matches_pattern` compiles a rule pattern into a Python regex and
calls `re.match(f"^{regex}$", path)`.  The regexes produced from the
patterns considered here use only: literal characters, `\c` escapes of
punctuation, `.` (any character except newline), postfix `*`, and simple
character classes `[...]`.  The parser returns `none` outside this
fragment (in particular for a dangling `*`/`**`, where Python raises
`re.error` and the code catches it and returns `False`, which coincides
with the `none => false` reading below; constructs such as `+?(){}|^$`,
ranges/negations in classes, and `\` followed by a letter or digit are
outside the model and never appear in the patterns reasoned about). -/

/-- A regex atom: literal character, `.`, or a character class. -/
inductive RAtom where
  | lit (c : Char)
  | anyChar
  | cls (cs : List Char)
deriving DecidableEq, Repr

/-- Scan a character class body up to the closing `]`, returning its
characters and the remainder. -/
def parseCls : List Char → Option (List Char × List Char)
  | [] => Option.none
  | ']' :: rest => some ([], rest)
  | c :: rest =>
    match parseCls rest with
    | some (cs, rem) => some (c :: cs, rem)
    | Option.none => Option.none

/-- Parse one regex atom from the input, returning the atom and the
remainder; `none` outside the supported fragment. -/
def parseAtom : List Char → Option (RAtom × List Char)
  | [] => Option.none
  | '\\' :: [] => Option.none
  | '\\' :: c :: rest => if c.isAlphanum then Option.none else some (.lit c, rest)
  | '[' :: rest =>
    match parseCls rest with
    | some (cs, rem) =>
      if cs.isEmpty || cs.contains '^' || cs.contains '-' || cs.contains '\\' then Option.none
      else some (.cls cs, rem)
    | Option.none => Option.none
  | '.' :: rest => some (.anyChar, rest)
  | c :: rest =>
    if c == '*' || c == '+' || c == '?' || c == '{' || c == '}' ||
        c == '(' || c == ')' || c == '|' || c == '^' || c == '$' then Option.none
    else some (.lit c, rest)

/-- Fueled parsing loop: a regex is a sequence of atoms, each optionally
starred. -/
def parseLoop : Nat → List Char → Option (List (RAtom × Bool))
  | _, [] => some []
  | 0, _ :: _ => Option.none
  | n + 1, l =>
    match parseAtom l with
    | Option.none => Option.none
    | some (a, rest) =>
      match rest with
      | '*' :: rest2 => (parseLoop n rest2).map (fun ps => (a, true) :: ps)
      | _ => (parseLoop n rest).map (fun ps => (a, false) :: ps)

/-- Parse a regex string (the fuel, the input length, always suffices
because each atom consumes at least one character). -/
def parseRegex (s : List Char) : Option (List (RAtom × Bool)) :=
  parseLoop s.length s

/-- Does an atom match one character?  `.` does not match a newline,
as in Python. -/
def atomMatch : RAtom → Char → Bool
  | .lit c, d => c == d
  | .anyChar, d => d != '\n'
  | .cls cs, d => cs.contains d

/-- Fueled full-string matcher for a parsed regex.  The boolean result of
an anchored match is insensitive to greediness, so the nondeterministic
(backtracking) reading used here agrees with Python's. -/
def matchPiecesF : Nat → List (RAtom × Bool) → List Char → Bool
  | _, [], [] => true
  | _, [], _ :: _ => false
  | _, (_, false) :: _, [] => false
  | 0, _ :: _, _ => false
  | n + 1, (a, false) :: ps, c :: cs => atomMatch a c && matchPiecesF n ps cs
  | n + 1, (_, true) :: ps, [] => matchPiecesF n ps []
  | n + 1, (a, true) :: ps, c :: cs =>
    matchPiecesF n ps (c :: cs) || (atomMatch a c && matchPiecesF n ((a, true) :: ps) cs)

/-- Full-string match of a parsed regex against a character list. -/
def matchPieces (ps : List (RAtom × Bool)) (cs : List Char) : Bool :=
  matchPiecesF (ps.length + cs.length) ps cs

/-- `Comparer._path_matches_pattern` from `comparer.py`:
escape every `.` as `\.`, then replace every (escaped-dot, star) pair
`\.*` by the wildcard `.*`, and test `re.match(f"^{regex}$", path)`
(full anchored match); a regex that fails to compile yields `False`. -/
def pathMatchesPattern (path pattern : String) : Bool :=
  let r1 := replaceAll ['.'] ['\\', '.'] pattern.data
  let r2 := replaceAll ['\\', '.', '*'] ['.', '*'] r1
  match parseRegex r2 with
  | some ps => matchPieces ps path.data
  | Option.none => false

/-- `ObjectComparator._path_matches_pattern` from `comparator.py` (the
older iteration): replace every `*` by `.*`, then escape every `.`
(including the ones just created) as `\.`, then repair `\.*` back to
`.*`, and test the anchored match. -/
def pathMatchesPatternAlt (path pattern : String) : Bool :=
  let r1 := replaceAll ['*'] ['.', '*'] pattern.data
  let r2 := replaceAll ['.'] ['\\', '.'] r1
  let r3 := replaceAll ['\\', '.', '*'] ['.', '*'] r2
  match parseRegex r3 with
  | some ps => matchPieces ps path.data
  | Option.none => false

/-- Modelled from the spec (for comparison with the code's conversion):
"convert each pattern to a matcher by escaping all literal `.` characters
then treating `*` as match-any-run-of-characters (i.e. `*` expands to
regex `.*`)", with full-string matching.  Fueled structurally like
`matchPiecesF`. -/
def specMatchesF : Nat → List Char → List Char → Bool
  | _, [], [] => true
  | _, [], _ :: _ => false
  | 0, _ :: _, _ => false
  | n + 1, '*' :: ps, [] => specMatchesF n ps []
  | n + 1, '*' :: ps, c :: cs =>
    specMatchesF n ps (c :: cs) || specMatchesF n ('*' :: ps) cs
  | _, _ :: _, [] => false
  | n + 1, p :: ps, c :: cs => p == c && specMatchesF n ps cs

/-- Modelled from the spec: wildcard-pattern matching as §4.1 words it. -/
def specPathMatchesPattern (path pattern : String) : Bool :=
  specMatchesF (pattern.data.length + path.data.length) pattern.data path.data

/-! ## Rule resolution (`_get_field_config`) -/

/-- `Comparer._get_field_config`: exact key match first (Python
`path in self.tolerances`), else the first pattern in insertion order
whose wildcard expansion matches the path. -/
def getFieldConfig (cmp : Comparer) (path : String) : Option RuleConfig :=
  match cmp.tolerances.find? (fun pc => pc.1 == path) with
  | some pc => some pc.2
  | Option.none =>
    match cmp.tolerances.find? (fun pc => pathMatchesPattern path pc.1) with
    | some pc => some pc.2
    | Option.none => Option.none

/-- `field_config and hasattr(field_config, 'ignore') and
field_config.ignore` — only a `FieldConfig` has the attribute. -/
def configIgnored : Option RuleConfig → Bool
  | some (.beh fc) => fc.ignore
  | _ => false

/-- `field_config and hasattr(field_config, 'required') and
not field_config.required`. -/
def configOptional : Option RuleConfig → Bool
  | some (.beh fc) => !fc.required
  | _ => false

/-- `field_config and hasattr(field_config, 'text_validation') and
field_config.text_validation`. -/
def configTextValidation : Option RuleConfig → Bool
  | some (.beh fc) => fc.text_validation
  | _ => false

/-! ## Value helpers -/

/-- `Comparer._is_numerical`: `isinstance(value, (int, float)) and not
isinstance(value, bool)`. -/
def isNumerical : Value → Bool
  | .int _ => true
  | .float _ => true
  | _ => false

/-- The numeric value of a Python number for arithmetic and `==`
(booleans count as `1`/`0` in Python's numeric tower). -/
def numVal : Value → Option Rat
  | .bool b => some (cond b 1 0)
  | .int n => some (n : Rat)
  | .float q => some q
  | _ => Option.none

/-- The numeric value of a value already known to be numerical. -/
def numOf (v : Value) : Rat :=
  (numVal v).getD 0

/-- `type(value).__name__`. -/
def typeName : Value → String
  | .null => "NoneType"
  | .bool _ => "bool"
  | .int _ => "int"
  | .float _ => "float"
  | .str _ => "str"
  | .list _ => "list"
  | .dict _ => "dict"

/-- `Comparer._types_compatible`: same runtime type, or (with
`normalize_types`) numeric-vs-numeric or string-vs-string. -/
def typesCompatible (opts : ComparisonOptions) (expected actual : Value) : Bool :=
  if typeName expected == typeName actual then true
  else if opts.normalize_types then
    if isNumerical expected && isNumerical actual then true
    else
      match expected, actual with
      | .str _, .str _ => true
      | _, _ => false
  else false

mutual

/-- Fueled worker for Python `==` on values.  Numbers (including `bool`)
compare by numeric value, strings/`None` by themselves; lists compare
elementwise.  `dict` equality is modelled order-sensitively (Python's is
order-insensitive, but `_compare_primitives` — the only caller of `==` —
never receives two dicts or two lists: `_compare_values` dispatches those
to `_compare_dicts`/`_compare_lists` first and rejects mixed kinds as
type mismatches). -/
def pyEqF : Nat → Value → Value → Bool
  | _, .null, .null => true
  | _, .str s, .str t => s == t
  | 0, .list _, .list _ => false
  | n + 1, .list xs, .list ys => pyEqListF n xs ys
  | 0, .dict _, .dict _ => false
  | n + 1, .dict xs, .dict ys => pyEqDictF n xs ys
  | _, e, a =>
    match numVal e, numVal a with
    | some x, some y => x == y
    | _, _ => false

/-- Elementwise Python `==` on lists (fueled). -/
def pyEqListF : Nat → List Value → List Value → Bool
  | _, [], [] => true
  | 0, _ :: _, _ => false
  | 0, _, _ :: _ => false
  | n + 1, x :: xs, y :: ys => pyEqF n x y && pyEqListF n xs ys
  | _ + 1, [], _ :: _ => false
  | _ + 1, _ :: _, [] => false

/-- Entrywise `==` on dict association lists (fueled). -/
def pyEqDictF : Nat → List (String × Value) → List (String × Value) → Bool
  | _, [], [] => true
  | 0, _ :: _, _ => false
  | 0, _, _ :: _ => false
  | n + 1, (k, v) :: xs, (k', v') :: ys => k == k' && pyEqF n v v' && pyEqDictF n xs ys
  | _ + 1, [], _ :: _ => false
  | _ + 1, _ :: _, [] => false

end

/-- Python `expected == actual`. -/
def pyEq (e a : Value) : Bool :=
  pyEqF (vsize e) e a

/-- Python truthiness of a value. -/
def truthy : Value → Bool
  | .null => false
  | .bool b => b
  | .int n => n != 0
  | .float q => q != 0
  | .str s => s != ""
  | .list xs => !xs.isEmpty
  | .dict xs => !xs.isEmpty

/-- Python `str()` of a float.  Integral rationals render as `"n.0"`
like Python floats; non-integral ones render as `num/den` (a modelling
approximation — the claims under study never constrain these strings). -/
def floatStr (q : Rat) : String :=
  if q.den == 1 then toString q.num ++ ".0" else toString q.num ++ "/" ++ toString q.den

/-- The single-quote character, for Python `repr` of strings. -/
def sq : String :=
  String.mk [Char.ofNat 39]

/-- Fueled Python `repr()` of a value (string escaping/quote-switching
inside `repr` is not modelled; the claims never constrain these
strings). -/
def pyReprF : Nat → Value → String
  | _, .null => "None"
  | _, .bool b => cond b "True" "False"
  | _, .int n => toString n
  | _, .float q => floatStr q
  | _, .str s => sq ++ s ++ sq
  | 0, .list _ => "[...]"
  | n + 1, .list xs => "[" ++ String.intercalate ", " (xs.map (fun x => pyReprF n x)) ++ "]"
  | 0, .dict _ => "\x7b...\x7d"
  | n + 1, .dict xs =>
    "\x7b" ++
      String.intercalate ", "
        (xs.map (fun kv => sq ++ kv.1 ++ sq ++ ": " ++ pyReprF n kv.2)) ++ "\x7d"

/-- Python `str()` of a value: like `repr` except on strings. -/
def pyStr : Value → String
  | .str s => s
  | v => pyReprF (vsize v) v

/-- The characters stripped by Python `str.strip()` (ASCII whitespace;
Unicode whitespace is not modelled). -/
def isPySpace (c : Char) : Bool :=
  c == ' ' || c == '\t' || c == '\n' || c == '\r' || c == Char.ofNat 11 || c == Char.ofNat 12

/-- Truthiness of `s.strip()`: does `s` contain a non-whitespace
character? -/
def hasContent (s : String) : Bool :=
  s.data.any (fun c => !isPySpace c)

/-- Python `f"{x:.2f}"` two-decimal formatting, modelled with round-half-up
on the exact rational (Python rounds the underlying binary float half to
even; the claims never constrain these reason strings). -/
def fmt2 (q : Rat) : String :=
  let n : Int := ⌊q * 100 + (1 : Rat) / 2⌋
  let w : Int := n / 100
  let f : Nat := (n % 100).natAbs
  let fs : String := if f < 10 then "0" ++ toString f else toString f
  toString w ++ "." ++ fs

/-! ## The comparison engine (`Comparer` from `comparer.py`) -/

/-- Path of a dict entry: `f"{path}.{key}" if path else key`. -/
def keyPath (path k : String) : String :=
  if path == "" then k else path ++ "." ++ k

/-- Path of a list item: `f"{path}[{i}]" if path else f"[{i}]"` (the two
cases coincide). -/
def idxPath (path : String) (i : Nat) : String :=
  path ++ "[" ++ toString i ++ "]"

/-- Synthetic path of a length mismatch:
`f"{path}.length" if path else "length"`. -/
def lengthPath (path : String) : String :=
  if path == "" then "length" else path ++ ".length"

/-- A `FieldResult`'s `name`: `path or "root"`. -/
def rootName (path : String) : String :=
  if path == "" then "root" else path

/-- Key iteration order for `set(expected.keys()) | set(actual.keys())`:
modelled as expected's keys in order followed by actual's new keys
(CPython's set order is hash-dependent but fixed within a process). -/
def unionKeys (d1 d2 : List (String × Value)) : List String :=
  (d1.map Prod.fst ++ d2.map Prod.fst).eraseDups

/-- `d.get(key)`: the value at `key`, or `None` when absent. -/
def dget (k : String) (d : List (String × Value)) : Value :=
  match d.find? (fun kv => kv.1 == k) with
  | some kv => kv.2
  | none => Value.null

/-- `Comparer._compare_numerical_with_tolerance` (lines 270–349 of
`comparer.py`): resolve the rule; a missing or non-`ToleranceConfig` rule
or an all-`None` tolerance is a `VALUE_MISMATCH`; otherwise the larger of
the percentage tolerance `abs(expected * percentage / 100)` and the
absolute tolerance applies (ties to percentage), and
`abs(expected - actual) <= tolerance` decides `IN_TOLERANCE` versus
`OUTSIDE_TOLERANCE`. -/
def compareNumericalWithTolerance (cmp : Comparer) (path : String)
    (expected actual : Value) : List FieldResult × Bool :=
  let noTol : List FieldResult × Bool :=
    ([⟨rootName path, false, .value_mismatch, expected, actual,
       "Value mismatch: expected " ++ pyStr expected ++ ", got " ++ pyStr actual ++
         " (no tolerance configured)", none, none, none⟩], false)
  let check : Rat → String → List FieldResult × Bool := fun tol ttype =>
    let diff := |numOf expected - numOf actual|
    if diff ≤ tol then
      ([⟨rootName path, true, .in_tolerance, expected, actual,
         "Within tolerance (" ++ ttype ++ ")", some ttype, none, none⟩], true)
    else
      ([⟨rootName path, false, .outside_tolerance, expected, actual,
         "Outside tolerance (" ++ ttype ++ "): difference " ++ fmt2 diff ++
           " > tolerance " ++ fmt2 tol, some ttype, none, none⟩], false)
  match getFieldConfig cmp path with
  | some (.tol tc) =>
    match tc.percentage, tc.absolute with
    | some p, some ab =>
      let pt := |numOf expected * p / 100|
      if pt ≥ ab then check pt (floatStr p ++ "%")
      else check ab (floatStr ab ++ " absolute")
    | some p, none => check (|numOf expected * p / 100|) (floatStr p ++ "%")
    | none, some ab => check ab (floatStr ab ++ " absolute")
    | none, none => noTol
  | _ => noTol

/-- `Comparer._compare_primitives` (lines 216–268 of `comparer.py`):
exact `==` gives `IDENTICAL`; two numbers go to the tolerance comparison;
a `text_validation` rule passes iff `actual and str(actual).strip()` is
truthy; otherwise `VALUE_MISMATCH`. -/
def comparePrimitives (cmp : Comparer) (path : String)
    (e a : Value) : List FieldResult × Bool :=
  if pyEq e a then
    ([⟨rootName path, true, .identical, e, a, "Values match exactly",
       none, none, none⟩], true)
  else if isNumerical e && isNumerical a then
    compareNumericalWithTolerance cmp path e a
  else if configTextValidation (getFieldConfig cmp path) then
    (if truthy a && hasContent (pyStr a) then
      ([⟨rootName path, true, .in_tolerance, e, a,
         "Text validation passed (non-empty)", none, none, none⟩], true)
    else
      ([⟨rootName path, false, .outside_tolerance, e, a,
         "Text validation failed (empty or None)", none, none, none⟩], false))
  else
    ([⟨rootName path, false, .value_mismatch, e, a,
       "Value mismatch: expected " ++ pyStr e ++ ", got " ++ pyStr a,
       none, none, none⟩], false)

/-- The entry emitted for an expected list item absent from `actual`
(`comparer.py` lines 188–212): `OPTIONAL_MISSING` when the rule at the
item path is a `FieldConfig` with `required=False`, else
`MISSING_REQUIRED`. -/
def missingItemEntry (cmp : Comparer) (path : String) (i : Nat) (e : Value) : FieldResult :=
  if configOptional (getFieldConfig cmp (idxPath path i)) then
    ⟨idxPath path i, true, .optional_missing, e, .null, "Optional field missing",
     none, none, none⟩
  else
    ⟨idxPath path i, false, .missing_required, e, .null, "Required field missing",
     none, none, none⟩

/-- One step of `Comparer._compare_values` (lines 54–214 of
`comparer.py`), with `rec` standing for the recursive calls.  The pair
returned is (the `FieldResult`s appended by this subtree, the `matches`
flag of the returned `FullComparisonResult`). -/
def compareBody (rec : Comparer → String → Value → Value → List FieldResult × Bool)
    (cmp : Comparer) (path : String) (expected actual : Value) : List FieldResult × Bool :=
  let fc := getFieldConfig cmp path
  if configIgnored fc then
    ([⟨rootName path, true, .ignored, expected, actual, "Field configured to ignore",
       none, none, none⟩], true)
  else
    match expected, actual with
    | .null, .null =>
      ([⟨rootName path, true, .identical, .null, .null, "Both values are None",
         none, none, none⟩], true)
    | .null, a =>
      if configOptional fc then
        ([⟨rootName path, true, .optional_missing, .null, a,
           "Optional field missing in expected", none, none, none⟩], true)
      else
        ([⟨rootName path, false, .missing_required, .null, a,
           "Required field missing in expected", none, none, none⟩], false)
    | e, .null =>
      if configOptional fc then
        ([⟨rootName path, true, .optional_missing, e, .null,
           "Optional field missing in actual", none, none, none⟩], true)
      else
        ([⟨rootName path, false, .missing_required, e, .null,
           "Required field missing in actual", none, none, none⟩], false)
    | e, a =>
      if !typesCompatible cmp.options e a then
        ([⟨rootName path, false, .type_mismatch, e, a,
           "Type mismatch: expected " ++ typeName e ++ ", got " ++ typeName a,
           none, some (typeName e), some (typeName a)⟩], false)
      else
        match e, a with
        | .dict d1, .dict d2 =>
          let results := (unionKeys d1 d2).map
            (fun k => rec cmp (keyPath path k) (dget k d1) (dget k d2))
          ((results.map Prod.fst).flatten, results.all Prod.snd)
        | .list xs, .list ys =>
          let lenFields : List FieldResult :=
            if xs.length = ys.length then []
            else [⟨lengthPath path, false, .array_length_mismatch,
                   .int (xs.length : Int), .int (ys.length : Int),
                   "Array length mismatch: expected " ++ toString xs.length ++
                     ", got " ++ toString ys.length, none, none, none⟩]
          let itemResults := (List.range (min xs.length ys.length)).map
            (fun i => rec cmp (idxPath path i) (xs.getD i .null) (ys.getD i .null))
          let missingIdx := List.range' ys.length (xs.length - ys.length)
          ( lenFields ++ (itemResults.map Prod.fst).flatten ++
              missingIdx.map (fun i => missingItemEntry cmp path i (xs.getD i .null)),
            decide (xs.length = ys.length) && itemResults.all Prod.snd &&
              missingIdx.all (fun i => configOptional (getFieldConfig cmp (idxPath path i))) )
        | e', a' => comparePrimitives cmp path e' a'

/-- Fueled `_compare_values` (fuel exhaustion yields the neutral
`([], true)` and is unreachable from `compareValues`, see
`compareValuesFuel_stable`). -/
def compareValuesFuel : Nat → Comparer → String → Value → Value → List FieldResult × Bool
  | 0 => fun _ _ _ _ => ([], true)
  | n + 1 => compareBody (compareValuesFuel n)

/-- `Comparer._compare_values`: the `FieldResult`s emitted for the
subtree rooted at `path`, and whether all of them passed. -/
def compareValues (cmp : Comparer) (path : String) (e a : Value) : List FieldResult × Bool :=
  compareValuesFuel (vsize e + vsize a) cmp path e a

/-- `FullComparisonResult` from `models.py` (the fields relevant to the
engine; `matches` is a Lean keyword, hence the primed field name). -/
structure FullComparisonResult where
  matches' : Bool
  summary : String
  fields : List FieldResult

/-- `Comparer.compare` (lines 31–52 of `comparer.py`). -/
def Comparer.compare (cmp : Comparer) (expected actual : Value) : FullComparisonResult :=
  let r := compareValues cmp "" expected actual
  let word := cond r.2 "passed" "failed"
  let failedCount := (r.1.filter (fun f => !f.passed)).length
  { matches' := r.2
    summary := "Comparison " ++ word ++ " with " ++ toString failedCount ++ " differences"
    fields := r.1 }

/-! ## Rendering (`ComparisonResult.format_table` from `models.py`) -/

/-- Left-justified padding to a width, as in `f"{s:<w}"` (strings longer
than the width are unchanged). -/
def padR (s : String) (w : Nat) : String :=
  s ++ String.mk (List.replicate (w - s.length) ' ')

/-- The `status_map` of `format_table`: simplified status words. -/
def simpleStatus : ComparisonStatus → String
  | .identical => "match"
  | .in_tolerance => "tolerated"
  | .outside_tolerance => "fail"
  | .type_mismatch => "fail"
  | .missing_required => "fail"
  | .optional_missing => "tolerated"
  | .value_mismatch => "fail"
  | .object_missing => "fail"
  | .array_length_mismatch => "fail"
  | .ignored => "ignored"

/-- `ComparisonResult._create_short_reason`. -/
def shortReason (f : FieldResult) : String :=
  match f.status with
  | .identical => "exact"
  | .in_tolerance =>
    match f.tolerance_applied with
    | some t => "< " ++ t
    | none => "tolerated"
  | .outside_tolerance =>
    match f.tolerance_applied with
    | some t => "> " ++ t
    | none => "failed"
  | .type_mismatch => "type"
  | .missing_required => "missing"
  | .optional_missing => "optional"
  | .value_mismatch => "exact"
  | .object_missing => "missing"
  | .array_length_mismatch => "length"
  | .ignored => "ignored"

/-- Truncation of a value's string form to 8 characters plus `"..."`. -/
def truncVal (v : Value) : String :=
  let s := pyStr v
  if s.length > 8 then s.take 8 ++ "..." else s

/-- Left truncation of a field name longer than 30 characters (keep the
last 27 characters behind `"..."`). -/
def truncName (s : String) : String :=
  if s.length > 30 then "..." ++ s.takeRight 27 else s

/-- The table header of `format_table` (verbatim). -/
def tableHeader : String :=
  "Field Name                      | Status     | Expected | Actual   | Reason"

/-- One table row of `format_table`. -/
def tableRow (f : FieldResult) : String :=
  padR (truncName f.name) 30 ++ " | " ++ padR (simpleStatus f.status) 10 ++ " | " ++
    padR (truncVal f.expected) 8 ++ " | " ++ padR (truncVal f.actual) 8 ++ " | " ++
    shortReason f

/-- The rendered table: header, dashed separator, one row per field. -/
def renderTable (fields : List FieldResult) : String :=
  String.intercalate "\n"
    (tableHeader :: String.mk (List.replicate tableHeader.length '-') :: fields.map tableRow)

/-- The detail-level filter of `format_table` (lines 150–161 of
`models.py`), on the stored status strings: `'failures'` drops
`identical`/`in_tolerance`/`ignored`, `'differences'` drops
`identical`/`ignored`, `'all'` keeps everything; any other detail is
rejected (`none`). -/
def detailFiltered (fields : List FieldResult) (detail : String) : Option (List FieldResult) :=
  if detail == "failures" then
    some (fields.filter (fun f => !(["identical", "in_tolerance", "ignored"].contains f.status.value)))
  else if detail == "differences" then
    some (fields.filter (fun f => !(["identical", "ignored"].contains f.status.value)))
  else if detail == "all" then
    some fields
  else
    none

/-- `ComparisonResult.format_table` (lines 141–205 of `models.py`):
an empty field list short-circuits to `"No fields to display"` before the
detail argument is validated; an unknown detail raises `ValueError`
(modelled as `Except.error`); an empty filtered set yields the sentinel
string; otherwise the table is rendered. -/
def format_table (fields : List FieldResult) (detail : String) : Except String String :=
  if fields.isEmpty then .ok "No fields to display"
  else
    match detailFiltered fields detail with
    | none =>
      .error ("Invalid detail level: " ++ detail ++
        ". Must be \x27failures\x27, \x27differences\x27, or \x27all\x27")
    | some filtered =>
      if filtered.isEmpty then .ok "No fields match the specified detail level"
      else .ok (renderTable filtered)

/-- The pass statuses of the status taxonomy (`models.py` lines 42–46):
`passed` should hold exactly for these. -/
def passStatus : ComparisonStatus → Bool
  | .identical => true
  | .in_tolerance => true
  | .ignored => true
  | .optional_missing => true
  | _ => false

/-- Two calls of `compare` on the same engine and inputs, in sequence
(the engine holds no per-call mutable state; its only state is the
read-only `tolerances`/`options`). -/
def compareTwice (cmp : Comparer) (e a : Value) : FullComparisonResult × FullComparisonResult :=
  let r1 := cmp.compare e a
  let r2 := cmp.compare e a
  (r1, r2)

/-! ## Sufficiency of the fuel -/

theorem vsize_pos (v : Value) : 0 < vsize v := by
  cases v <;> simp [vsize]

theorem vsizeD_pos (d : List (String × Value)) : 0 < vsizeD d := by
  cases d <;> simp [vsizeD]

theorem vsizeL_pos (l : List Value) : 0 < vsizeL l := by
  cases l <;> simp [vsizeL]

theorem dget_vsize_lt (k : String) (d : List (String × Value)) :
    vsize (dget k d) < vsize (Value.dict d) := by
  induction d with
  | nil => simp [dget, List.find?, vsize, vsizeD]
  | cons kv rest ih =>
    simp only [dget, List.find?]
    cases hk : kv.1 == k
    · simp only [hk]
      have : vsize (dget k rest) < vsize (Value.dict rest) := ih
      simp only [dget] at this
      simp only [vsize, vsizeD] at *
      omega
    · have h1 := vsize_pos kv.2
      simp only [hk, vsize, vsizeD]
      omega

theorem getD_vsize_lt (xs : List Value) (i : Nat) :
    vsize (xs.getD i Value.null) < vsize (Value.list xs) := by
  induction xs generalizing i with
  | nil => simp [List.getD, vsize, vsizeL]
  | cons x rest ih =>
    cases i with
    | zero => simp [vsize, vsizeL]; omega
    | succ j =>
      have := ih j
      simp only [List.getD_cons_succ]
      simp only [vsize, vsizeL] at *
      omega

theorem compareBody_congr
    (r1 r2 : Comparer → String → Value → Value → List FieldResult × Bool)
    (cmp : Comparer) (path : String) (e a : Value)
    (h : ∀ cmp' p' e' a', vsize e' + vsize a' < vsize e + vsize a →
      r1 cmp' p' e' a' = r2 cmp' p' e' a') :
    compareBody r1 cmp path e a = compareBody r2 cmp path e a := by
  unfold compareBody
  cases e <;> cases a <;> (try rfl)
  case dict.dict d1 d2 =>
    have hm : (unionKeys d1 d2).map (fun k => r1 cmp (keyPath path k) (dget k d1) (dget k d2)) =
        (unionKeys d1 d2).map (fun k => r2 cmp (keyPath path k) (dget k d1) (dget k d2)) := by
      refine List.map_congr_left (fun k _ => ?_)
      exact h _ _ _ _ (by
        have h1 := dget_vsize_lt k d1
        have h2 := dget_vsize_lt k d2
        omega)
    simp only [hm]
  case list.list xs ys =>
    have hm : (List.range (min xs.length ys.length)).map
          (fun i => r1 cmp (idxPath path i) (xs.getD i .null) (ys.getD i .null)) =
        (List.range (min xs.length ys.length)).map
          (fun i => r2 cmp (idxPath path i) (xs.getD i .null) (ys.getD i .null)) := by
      refine List.map_congr_left (fun i _ => ?_)
      exact h _ _ _ _ (by
        have h1 := getD_vsize_lt xs i
        have h2 := getD_vsize_lt ys i
        omega)
    simp only [hm]

theorem compareValuesFuel_stable :
    ∀ (n : Nat) (cmp : Comparer) (path : String) (e a : Value),
      vsize e + vsize a ≤ n →
      compareValuesFuel n cmp path e a = compareValues cmp path e a := by
  intro n
  induction n using Nat.strong_induction_on with
  | _ n ih =>
    intro cmp path e a hle
    have he := vsize_pos e
    have ha := vsize_pos a
    obtain ⟨m, rfl⟩ : ∃ m, n = m + 1 := ⟨n - 1, by omega⟩
    obtain ⟨t, ht⟩ : ∃ t, vsize e + vsize a = t + 1 := ⟨vsize e + vsize a - 1, by omega⟩
    show compareBody (compareValuesFuel m) cmp path e a = compareValues cmp path e a
    have step2 : compareValues cmp path e a = compareBody (compareValuesFuel t) cmp path e a := by
      simp only [compareValues, ht, compareValuesFuel]
    rw [step2]
    have hc1 : compareBody (compareValuesFuel m) cmp path e a =
        compareBody compareValues cmp path e a := by
      refine compareBody_congr _ _ _ _ _ _ (fun cmp' p' e' a' hlt => ?_)
      exact ih m (by omega) cmp' p' e' a' (by omega)
    have hc2 : compareBody (compareValuesFuel t) cmp path e a =
        compareBody compareValues cmp path e a := by
      refine compareBody_congr _ _ _ _ _ _ (fun cmp' p' e' a' hlt => ?_)
      exact ih t (by omega) cmp' p' e' a' (by omega)
    rw [hc1, hc2]

/-- The defining one-step equation of `_compare_values`: the wrapper
satisfies the intended recursion (so the fuel is invisible to all
reasoning below). -/
theorem compareValues_eq (cmp : Comparer) (path : String) (e a : Value) :
    compareValues cmp path e a = compareBody compareValues cmp path e a := by
  have he := vsize_pos e
  have ha := vsize_pos a
  obtain ⟨t, ht⟩ : ∃ t, vsize e + vsize a = t + 1 := ⟨vsize e + vsize a - 1, by omega⟩
  show compareValuesFuel (vsize e + vsize a) cmp path e a = _
  rw [ht]
  show compareBody (compareValuesFuel t) cmp path e a = _
  refine compareBody_congr _ _ _ _ _ _ (fun cmp' p' e' a' hlt => ?_)
  exact compareValuesFuel_stable t cmp' p' e' a' (by omega)

/-! ## The pass/aggregation invariants of the traversal -/

theorem allMap {α β : Type} (f : α → β) (p : β → Bool) :
    ∀ l : List α, (l.map f).all p = l.all (fun x => p (f x)) := by
  intro l
  induction l with
  | nil => rfl
  | cons x rest ih => simp [ih]

theorem all_flatten {α : Type} (p : α → Bool) :
    ∀ l : List (List α), l.flatten.all p = l.all (fun s => s.all p) := by
  intro l
  induction l with
  | nil => rfl
  | cons x rest ih => simp [List.all_append, ih]

theorem missingItemEntry_passed (cmp : Comparer) (path : String) (i : Nat) (e : Value) :
    (missingItemEntry cmp path i e).passed =
      configOptional (getFieldConfig cmp (idxPath path i)) := by
  unfold missingItemEntry
  cases h : configOptional (getFieldConfig cmp (idxPath path i)) <;> simp [h]

theorem compareNumericalWithTolerance_matches_all
    (cmp : Comparer) (path : String) (e a : Value) :
    (compareNumericalWithTolerance cmp path e a).2 =
      (compareNumericalWithTolerance cmp path e a).1.all (fun f => f.passed) := by
  unfold compareNumericalWithTolerance
  repeat' split
  all_goals (first | (simp; done) | (dsimp only []; split_ifs <;> simp))

theorem comparePrimitives_matches_all (cmp : Comparer) (path : String) (e a : Value) :
    (comparePrimitives cmp path e a).2 =
      (comparePrimitives cmp path e a).1.all (fun f => f.passed) := by
  unfold comparePrimitives
  split
  · simp
  · split
    · exact compareNumericalWithTolerance_matches_all cmp path e a
    · split
      · split <;> simp
      · simp

theorem compareBody_matches_all
    (r : Comparer → String → Value → Value → List FieldResult × Bool)
    (hr : ∀ cmp p e a, (r cmp p e a).2 = (r cmp p e a).1.all (fun f => f.passed)) :
    ∀ cmp path e a,
      (compareBody r cmp path e a).2 = (compareBody r cmp path e a).1.all (fun f => f.passed) := by
  intro cmp path e a
  unfold compareBody
  cases hig : configIgnored (getFieldConfig cmp path)
  case true => simp [hig]
  case false =>
    simp only [hig, Bool.false_eq_true, if_false]
    cases e <;> cases a <;> dsimp only [] <;>
      first
      | (simp; done)
      | (cases hop : configOptional (getFieldConfig cmp path) <;> (simp [hop]; done))
      | (split <;>
          (first
            | (simp; done)
            | (exact comparePrimitives_matches_all cmp path _ _)
            | (simp [List.map_map, allMap, all_flatten, Function.comp, hr]; done)
            | (split <;>
                simp_all [List.all_append, List.map_map, allMap, all_flatten,
                  Function.comp, hr, missingItemEntry_passed, Bool.and_assoc])))

theorem compareValuesFuel_matches_all (n : Nat) :
    ∀ cmp path e a,
      (compareValuesFuel n cmp path e a).2 =
        (compareValuesFuel n cmp path e a).1.all (fun f => f.passed) := by
  induction n with
  | zero => intro cmp path e a; rfl
  | succ m ih => exact compareBody_matches_all (compareValuesFuel m) ih

/-! ## Status/passed consistency of every emitted `FieldResult` -/

/-- The invariant of claim C10 for a single result record. -/
def statusConsistent (f : FieldResult) : Prop :=
  f.passed = passStatus f.status ∧ f.status ≠ ComparisonStatus.object_missing

theorem missingItemEntry_status (cmp : Comparer) (path : String) (i : Nat) (e : Value) :
    statusConsistent (missingItemEntry cmp path i e) := by
  unfold missingItemEntry
  split <;> simp [statusConsistent, passStatus]

theorem compareNumericalWithTolerance_status (cmp : Comparer) (path : String) (e a : Value) :
    ∀ f ∈ (compareNumericalWithTolerance cmp path e a).1, statusConsistent f := by
  intro f hf
  unfold compareNumericalWithTolerance at hf
  repeat' split at hf
  all_goals
    first
    | (simp at hf; subst hf; simp [statusConsistent, passStatus])
    | (dsimp only [] at hf;
       split_ifs at hf <;> (simp at hf; subst hf; simp [statusConsistent, passStatus]))

theorem comparePrimitives_status (cmp : Comparer) (path : String) (e a : Value) :
    ∀ f ∈ (comparePrimitives cmp path e a).1, statusConsistent f := by
  intro f hf
  unfold comparePrimitives at hf
  split at hf
  · simp at hf; subst hf; simp [statusConsistent, passStatus]
  · split at hf
    · exact compareNumericalWithTolerance_status cmp path e a f hf
    · split at hf
      · split at hf <;> (simp at hf; subst hf; simp [statusConsistent, passStatus])
      · simp at hf; subst hf; simp [statusConsistent, passStatus]

theorem compareBody_status
    (r : Comparer → String → Value → Value → List FieldResult × Bool)
    (hr : ∀ cmp p e a f, f ∈ (r cmp p e a).1 → statusConsistent f) :
    ∀ cmp path e a f, f ∈ (compareBody r cmp path e a).1 → statusConsistent f := by
  intro cmp path e a f hf
  unfold compareBody at hf
  cases hig : configIgnored (getFieldConfig cmp path) <;> simp only [hig] at hf
  case true => simp at hf; subst hf; simp [statusConsistent, passStatus]
  case false =>
    simp only [Bool.false_eq_true, if_false] at hf
    cases e <;> cases a <;> dsimp only [] at hf <;>
      first
      | (simp at hf; subst hf; simp [statusConsistent, passStatus]; done)
      | (split at hf <;> (simp at hf; subst hf; simp [statusConsistent, passStatus]); done)
      | (split at hf <;>
          (first
            | (simp at hf; subst hf; simp [statusConsistent, passStatus]; done)
            | (exact comparePrimitives_status cmp path _ _ f hf)
            | (simp only [List.map_map, List.mem_flatten, List.mem_map, Function.comp] at hf;
               obtain ⟨l, ⟨k, hk, rfl⟩, hfl⟩ := hf;
               exact hr _ _ _ _ f hfl)
            | (simp only [List.append_assoc, List.mem_append] at hf;
               rcases hf with hlen | hitem | hmiss
               · split at hlen <;> simp at hlen
                 subst hlen; simp [statusConsistent, passStatus]
               · simp only [List.map_map, List.mem_flatten, List.mem_map,
                   Function.comp] at hitem
                 obtain ⟨l, ⟨i, hi, rfl⟩, hfl⟩ := hitem
                 exact hr _ _ _ _ f hfl
               · simp only [List.mem_map] at hmiss
                 obtain ⟨i, hi, rfl⟩ := hmiss
                 exact missingItemEntry_status cmp path i _)))

theorem compareValuesFuel_status (n : Nat) :
    ∀ cmp path e a f, f ∈ (compareValuesFuel n cmp path e a).1 → statusConsistent f := by
  induction n with
  | zero => intro cmp path e a f hf; simp [compareValuesFuel] at hf
  | succ m ih => exact compareBody_status (compareValuesFuel m) ih

/-! ## Recursion equations for the regex matcher -/

theorem matchPiecesF_congr :
    ∀ (n m : Nat) (ps : List (RAtom × Bool)) (cs : List Char),
      ps.length + cs.length ≤ n → ps.length + cs.length ≤ m →
      matchPiecesF n ps cs = matchPiecesF m ps cs := by
  intro n
  induction n using Nat.strong_induction_on with
  | _ n ih =>
    intro m ps cs hn hm
    cases ps with
    | nil =>
      cases cs with
      | nil => cases n <;> cases m <;> simp [matchPiecesF]
      | cons c cs' => cases n <;> cases m <;> simp [matchPiecesF]
    | cons p ps' =>
      obtain ⟨a, st⟩ := p
      simp only [List.length_cons] at hn hm
      cases st
      case false =>
        cases cs with
        | nil => cases n <;> cases m <;> simp [matchPiecesF]
        | cons c cs' =>
          simp only [List.length_cons] at hn hm
          obtain ⟨n', rfl⟩ : ∃ k, n = k + 1 := ⟨n - 1, by omega⟩
          obtain ⟨m', rfl⟩ : ∃ k, m = k + 1 := ⟨m - 1, by omega⟩
          simp only [matchPiecesF]
          rw [ih n' (by omega) m' ps' cs' (by omega) (by omega)]
      case true =>
        cases cs with
        | nil =>
          obtain ⟨n', rfl⟩ : ∃ k, n = k + 1 := ⟨n - 1, by omega⟩
          obtain ⟨m', rfl⟩ : ∃ k, m = k + 1 := ⟨m - 1, by omega⟩
          simp only [matchPiecesF]
          exact ih n' (by omega) m' ps' [] (by simp; omega) (by simp; omega)
        | cons c cs' =>
          simp only [List.length_cons] at hn hm
          obtain ⟨n', rfl⟩ : ∃ k, n = k + 1 := ⟨n - 1, by omega⟩
          obtain ⟨m', rfl⟩ : ∃ k, m = k + 1 := ⟨m - 1, by omega⟩
          simp only [matchPiecesF]
          rw [ih n' (by omega) m' ps' (c :: cs') (by simp; omega) (by simp; omega)]
          rw [ih n' (by omega) m' ((a, true) :: ps') cs' (by simp; omega) (by simp; omega)]

theorem matchPieces_eq_fuel (n : Nat) (ps : List (RAtom × Bool)) (cs : List Char)
    (h : ps.length + cs.length ≤ n) : matchPiecesF n ps cs = matchPieces ps cs :=
  matchPiecesF_congr n (ps.length + cs.length) ps cs h le_rfl

theorem matchPieces_lit_cons (a : RAtom) (ps : List (RAtom × Bool)) (c : Char) (cs : List Char) :
    matchPieces ((a, false) :: ps) (c :: cs) = (atomMatch a c && matchPieces ps cs) := by
  have h1 : ((a, false) :: ps).length + (c :: cs).length = (ps.length + cs.length + 1) + 1 := by
    simp [List.length_cons]; omega
  unfold matchPieces
  rw [h1]
  simp only [matchPiecesF]
  rw [matchPiecesF_congr (ps.length + cs.length + 1) (ps.length + cs.length) ps cs
    (by omega) (by omega)]

theorem matchPieces_star_nil (a : RAtom) (ps : List (RAtom × Bool)) :
    matchPieces ((a, true) :: ps) [] = matchPieces ps [] := by
  have h1 : ((a, true) :: ps).length + ([] : List Char).length = (ps.length + 0) + 1 := by
    simp [List.length_cons]
  unfold matchPieces
  rw [h1]
  simp only [matchPiecesF]
  rfl

theorem matchPieces_star_cons (a : RAtom) (ps : List (RAtom × Bool)) (c : Char) (cs : List Char) :
    matchPieces ((a, true) :: ps) (c :: cs) =
      (matchPieces ps (c :: cs) || (atomMatch a c && matchPieces ((a, true) :: ps) cs)) := by
  have h1 : ((a, true) :: ps).length + (c :: cs).length = (((a, true) :: ps).length + cs.length) + 1 := by
    simp only [List.length_cons]; omega
  unfold matchPieces
  rw [h1]
  simp only [matchPiecesF]
  rw [matchPiecesF_congr (((a, true) :: ps).length + cs.length) (ps.length + (c :: cs).length)
    ps (c :: cs) (by simp only [List.length_cons]; omega) (by simp only [List.length_cons]; omega)]

/-- A starred atom absorbs any run of characters it matches. -/
theorem matchPieces_star_absorb (a : RAtom) (ps : List (RAtom × Bool)) :
    ∀ (mid cs : List Char), (∀ c ∈ mid, atomMatch a c = true) →
      matchPieces ps cs = true → matchPieces ((a, true) :: ps) (mid ++ cs) = true := by
  intro mid
  induction mid with
  | nil =>
    intro cs hm hp
    cases cs with
    | nil => rw [List.nil_append, matchPieces_star_nil]; exact hp
    | cons c cs' => rw [List.nil_append, matchPieces_star_cons]; simp [hp]
  | cons c mid' ih =>
    intro cs hm hp
    rw [List.cons_append, matchPieces_star_cons]
    have hc : atomMatch a c = true := hm c (by simp)
    have hrest := ih cs (fun d hd => hm d (by simp [hd])) hp
    simp [hc, hrest]

/-! ## Claim C1: the `'failures'` detail filter -/

/-- A comparer whose only rule marks `b` optional. -/
def cmpC1 : Comparer :=
  ⟨[("b", .beh ⟨false, false, false⟩)], ⟨false⟩⟩

/-- The fields of comparing `{"a": 1, "b": 2}` against `{"a": 1}` with `b`
optional: an `IDENTICAL` entry for `a` and an `OPTIONAL_MISSING` entry
for `b`. -/
def fieldsC1 : List FieldResult :=
  (cmpC1.compare (.dict [("a", .int 1), ("b", .int 2)]) (.dict [("a", .int 1)])).fields

/-- C1 (counterexample): `format_table('failures')` does render a row for
a field with status `OPTIONAL_MISSING`.  On a real comparison producing
an `IDENTICAL` field `a` and an `OPTIONAL_MISSING` field `b`, the
`'failures'` filter keeps `b` and the rendered table contains its row —
refuting the claim that the `'failures'` level filters out
`OPTIONAL_MISSING`. -/
theorem C1_counterexample :
    fieldsC1.map (fun f => (f.name, f.status, f.passed)) =
        [("a", ComparisonStatus.identical, true), ("b", ComparisonStatus.optional_missing, true)] ∧
    (detailFiltered fieldsC1 "failures").map (fun l => l.map (fun f => (f.name, f.status))) =
        some [("b", ComparisonStatus.optional_missing)] ∧
    format_table fieldsC1 "failures" =
      Except.ok
        ("Field Name                      | Status     | Expected | Actual   | Reason\n" ++
         "---------------------------------------------------------------------------\n" ++
         "b                              | tolerated  | 2        | None     | optional") :=
  ⟨rfl, rfl, rfl⟩

/-- C1 (amended): the `'failures'` detail level of `format_table` filters
out exactly the fields whose status is in
\x7bIDENTICAL, IN_TOLERANCE, IGNORED\x7d and renders all remaining fields
(in particular, `OPTIONAL_MISSING` fields are rendered even though they
passed). -/
theorem C1_thm (fields : List FieldResult) (l : List FieldResult) (f : FieldResult)
    (h : detailFiltered fields "failures" = some l) :
    f ∈ l ↔ f ∈ fields ∧ f.status ≠ ComparisonStatus.identical ∧
      f.status ≠ ComparisonStatus.in_tolerance ∧ f.status ≠ ComparisonStatus.ignored := by
  have hl : l = fields.filter
      (fun f => !(["identical", "in_tolerance", "ignored"].contains f.status.value)) := by
    simpa [detailFiltered] using h.symm
  subst hl
  rw [List.mem_filter]
  refine and_congr_right fun _ => ?_
  cases hs : f.status <;> simp [hs, ComparisonStatus.value]

/-- The single `OPTIONAL_MISSING` entry of `fieldsC1`. -/
def optEntryC1 : FieldResult :=
  ⟨"b", true, .optional_missing, .int 2, .null, "Optional field missing in actual",
   none, none, none⟩

/-- C1 (witness): the amended filter characterization, evaluated on the
concrete comparison of `fieldsC1`. -/
theorem C1_witness :
    optEntryC1 ∈ [optEntryC1] ↔ optEntryC1 ∈ fieldsC1 ∧
      optEntryC1.status ≠ ComparisonStatus.identical ∧
      optEntryC1.status ≠ ComparisonStatus.in_tolerance ∧
      optEntryC1.status ≠ ComparisonStatus.ignored :=
  C1_thm fieldsC1 [optEntryC1] optEntryC1 rfl

/-! ## Claim C2: wildcard pattern resolution -/

/-- A comparer with the bracket-wildcard rule from the claim. -/
def cmpC2 : Comparer :=
  ⟨[("items[*].name", .tol ⟨some 10, none⟩)], ⟨false⟩⟩

/-- C2 (counterexample): the spec-modelled conversion (escape dots, every
`*` becomes `.*`) matches `items[0].name` against `items[*].name`, but
both implementations of `_path_matches_pattern` reject it (the `*` inside
brackets is never expanded: `comparer.py` leaves the character class
`[*]`, `comparator.py` produces the class `[.*]`), so rule resolution
finds no rule for the path. -/
theorem C2_counterexample :
    specPathMatchesPattern "items[0].name" "items[*].name" = true ∧
    pathMatchesPattern "items[0].name" "items[*].name" = false ∧
    pathMatchesPatternAlt "items[0].name" "items[*].name" = false ∧
    getFieldConfig cmpC2 "items[0].name" = none :=
  ⟨rfl, rfl, rfl, rfl⟩

/-- C2 (amended): after an exact-key match fails, only a `*` immediately
preceded by `.` in the pattern is expanded to the regex wildcard `.*`
(matching any run of non-newline characters, path separators and brackets
included): `items.*.name` matches `items` ++ anything ++ `.name`, while a
`*` elsewhere is kept as a plain regex character, so `items[*].name` does
not match `items[0].name`. -/
theorem C2_thm (mid : String) (hmid : ∀ c ∈ mid.data, c ≠ '\n') :
    pathMatchesPattern ("items" ++ mid ++ ".name") "items.*.name" = true ∧
    pathMatchesPattern "items[0].name" "items[*].name" = false := by
  refine ⟨?_, rfl⟩
  show matchPieces
      [(.lit 'i', false), (.lit 't', false), (.lit 'e', false), (.lit 'm', false),
       (.lit 's', false), (.anyChar, true), (.lit '.', false), (.lit 'n', false),
       (.lit 'a', false), (.lit 'm', false), (.lit 'e', false)]
      ("items" ++ mid ++ ".name").data = true
  have hdata : ("items" ++ mid ++ ".name").data =
      'i' :: 't' :: 'e' :: 'm' :: 's' ::
        (mid.data ++ ('.' :: 'n' :: 'a' :: 'm' :: 'e' :: [])) := by
    rw [String.data_append, String.data_append, List.append_assoc]
    rfl
  rw [hdata, matchPieces_lit_cons, matchPieces_lit_cons, matchPieces_lit_cons,
    matchPieces_lit_cons, matchPieces_lit_cons]
  simp only [atomMatch, beq_self_eq_true, Bool.true_and]
  apply matchPieces_star_absorb
  · intro c hc
    simp only [atomMatch, bne_iff_ne, ne_eq]
    exact hmid c hc
  · rfl

/-- C2 (witness): the amended statement at `mid = "[0]"`, i.e.
`items.*.name` does match `items[0].name` while `items[*].name` does
not. -/
theorem C2_witness :
    pathMatchesPattern ("items" ++ "[0]" ++ ".name") "items.*.name" = true ∧
    pathMatchesPattern "items[0].name" "items[*].name" = false :=
  C2_thm "[0]" (by decide)

/-! ## Claim C3: text validation -/

/-- A comparer with a `text_validation` rule at the root path. -/
def cmpC3 : Comparer :=
  ⟨[("", .beh ⟨false, false, true⟩)], ⟨false⟩⟩

/-- C3 (counterexample): comparing `True` against `False` under a
`textOnly` rule fails with `OUTSIDE_TOLERANCE`, even though `False` is
non-null and its string form `"False"` has non-whitespace content — the
code tests Python truthiness (`if actual and ...`), not non-nullity, so
`actual=False` does not pass. -/
theorem C3_counterexample :
    (cmpC3.compare (.bool true) (.bool false)).fields.map (fun f => (f.name, f.status, f.passed)) =
        [("root", ComparisonStatus.outside_tolerance, false)] ∧
    Value.bool false ≠ Value.null ∧
    hasContent (pyStr (.bool false)) = true :=
  ⟨rfl, fun h => Value.noConfusion h, rfl⟩

/-- C3 (amended): for a scalar comparison with unequal values, not both
numeric, under a `FieldConfig` rule with `text_validation=true`, the field
passes with `IN_TOLERANCE` iff `actual` is truthy AND its string form has
non-whitespace content (so `actual=False`, `0`-like and empty values
fail), and otherwise fails with `OUTSIDE_TOLERANCE`; the expected value
plays no role. -/
theorem C3_thm (cmp : Comparer) (path : String) (e a : Value) (fc : FieldConfig)
    (hne : pyEq e a = false)
    (hnum : (isNumerical e && isNumerical a) = false)
    (hfc : getFieldConfig cmp path = some (.beh fc))
    (htv : fc.text_validation = true) :
    comparePrimitives cmp path e a =
      (if truthy a && hasContent (pyStr a) then
        ([⟨rootName path, true, .in_tolerance, e, a,
           "Text validation passed (non-empty)", none, none, none⟩], true)
      else
        ([⟨rootName path, false, .outside_tolerance, e, a,
           "Text validation failed (empty or None)", none, none, none⟩], false)) := by
  unfold comparePrimitives
  rw [hne, hnum]
  simp only [Bool.false_eq_true, if_false, configTextValidation, hfc, htv, if_true]

/-- A comparer with a `text_validation` rule at path `f`. -/
def cmpC3w : Comparer :=
  ⟨[("f", .beh ⟨false, false, true⟩)], ⟨false⟩⟩

/-- C3 (witness): the amended behavior at concrete strings `"x"` vs `"y"`
(unequal, non-numeric, truthy actual with content → `IN_TOLERANCE`). -/
theorem C3_witness :
    pyEq (.str "x") (.str "y") = false ∧
    (isNumerical (.str "x") && isNumerical (.str "y")) = false ∧
    getFieldConfig cmpC3w "f" = some (.beh ⟨false, false, true⟩) ∧
    comparePrimitives cmpC3w "f" (.str "x") (.str "y") =
      ([⟨"f", true, .in_tolerance, .str "x", .str "y",
         "Text validation passed (non-empty)", none, none, none⟩], true) := by
  refine ⟨rfl, rfl, rfl, ?_⟩
  rw [C3_thm cmpC3w "f" (.str "x") (.str "y") ⟨false, false, true⟩ rfl rfl rfl rfl]
  rfl

/-! ## Claim C4: invalid `detail` argument to `format_table` -/

/-- C4 (counterexample): with an empty field list, `format_table` returns
the `"No fields to display"` sentinel before ever validating the detail
argument — so an invalid detail does NOT raise in that case, refuting the
claim's "including when the result's field list is empty". -/
theorem C4_counterexample :
    format_table [] "bogus" = Except.ok "No fields to display" :=
  rfl

/-- C4 (amended): for every non-empty field list, a detail argument not
in \x7b'failures', 'differences', 'all'\x7d makes `format_table` fail fast
with a `ValueError` naming the invalid level; with an empty field list
the sentinel "No fields to display" is returned instead and the detail
argument is never validated. -/
theorem C4_thm (fields : List FieldResult) (detail : String)
    (h1 : detail ≠ "failures") (h2 : detail ≠ "differences") (h3 : detail ≠ "all")
    (hne : fields ≠ []) :
    format_table fields detail =
      Except.error ("Invalid detail level: " ++ detail ++
        ". Must be \x27failures\x27, \x27differences\x27, or \x27all\x27") := by
  cases fields with
  | nil => exact absurd rfl hne
  | cons f fs =>
    unfold format_table detailFiltered
    simp [h1, h2, h3]

/-- A generic passing entry for the C4 witness. -/
def entryC4 : FieldResult :=
  ⟨"x", true, .identical, .null, .null, "Values match exactly", none, none, none⟩

/-- C4 (witness): the amended claim at `detail = "bogus"` with one
field. -/
theorem C4_witness :
    ("bogus" ≠ "failures" ∧ "bogus" ≠ "differences" ∧ "bogus" ≠ "all" ∧
      [entryC4] ≠ ([] : List FieldResult)) ∧
    format_table [entryC4] "bogus" =
      Except.error ("Invalid detail level: bogus" ++
        ". Must be \x27failures\x27, \x27differences\x27, or \x27all\x27") :=
  ⟨⟨by decide, by decide, by decide, fun h => List.noConfusion h⟩,
   C4_thm [entryC4] "bogus" (by decide) (by decide) (by decide) (fun h => List.noConfusion h)⟩

/-! ## Claim C5: list comparison -/

/-- C5 (confirmed): comparing two lists at a non-ignored path emits, in
order: exactly one `ARRAY_LENGTH_MISMATCH` entry at `path.length`
(`length` at root) with `passed=false`, `expected=len(expected)`,
`actual=len(actual)` when the lengths differ (and no such entry
otherwise); then the pairwise item comparisons at `path[i]` for every
`i < min(len(expected), len(actual))`; then, for every index
`len(actual) ≤ i < len(expected)`, an `OPTIONAL_MISSING` (`passed=true`)
entry when the rule at `path[i]` is a `FieldConfig` with
`required=false`, else a `MISSING_REQUIRED` (`passed=false`) entry with
`actual=None`.  Indices present only in `actual` produce nothing, and
the subtree matches iff the lengths agree, all compared items match and
all missing items are optional. -/
theorem C5_thm (cmp : Comparer) (path : String) (xs ys : List Value)
    (h : configIgnored (getFieldConfig cmp path) = false) :
    compareValues cmp path (.list xs) (.list ys) =
      ( (if xs.length = ys.length then []
         else [⟨lengthPath path, false, .array_length_mismatch,
                .int (xs.length : Int), .int (ys.length : Int),
                "Array length mismatch: expected " ++ toString xs.length ++
                  ", got " ++ toString ys.length, none, none, none⟩]) ++
        ((List.range (min xs.length ys.length)).map
          (fun i => (compareValues cmp (idxPath path i) (xs.getD i .null) (ys.getD i .null)).1)).flatten ++
        (List.range' ys.length (xs.length - ys.length)).map
          (fun i => missingItemEntry cmp path i (xs.getD i .null)),
        decide (xs.length = ys.length) &&
          (List.range (min xs.length ys.length)).all
            (fun i => (compareValues cmp (idxPath path i) (xs.getD i .null) (ys.getD i .null)).2) &&
          (List.range' ys.length (xs.length - ys.length)).all
            (fun i => configOptional (getFieldConfig cmp (idxPath path i))) ) := by
  rw [compareValues_eq]
  unfold compareBody
  simp only [h, Bool.false_eq_true, if_false]
  have hty : typesCompatible cmp.options (.list xs) (.list ys) = true := by
    simp [typesCompatible, typeName]
  simp only [hty, Bool.not_true, Bool.false_eq_true, if_false]
  simp only [List.map_map, allMap, Function.comp_def]

/-- An engine with no rules, for the C5 witness. -/
def cmpC5 : Comparer := ⟨[], ⟨false⟩⟩

/-- C5 (witness): comparing `[1, 2]` against `[1]` at path `items` with
no rules: one length-mismatch entry at `items.length`, one `IDENTICAL`
entry for the compared pair at `items[0]`, one `MISSING_REQUIRED` entry
at `items[1]`, and the subtree fails. -/
theorem C5_witness :
    configIgnored (getFieldConfig cmpC5 "items") = false ∧
    (compareValues cmpC5 "items" (.list [.int 1, .int 2]) (.list [.int 1])).1.map
        (fun f => (f.name, f.status, f.passed, f.expected, f.actual)) =
      [("items.length", ComparisonStatus.array_length_mismatch, false, Value.int 2, Value.int 1),
       ("items[0]", ComparisonStatus.identical, true, Value.int 1, Value.int 1),
       ("items[1]", ComparisonStatus.missing_required, false, Value.int 2, Value.null)] ∧
    (compareValues cmpC5 "items" (.list [.int 1, .int 2]) (.list [.int 1])).2 = false := by
  refine ⟨rfl, ?_, ?_⟩
  · rw [C5_thm cmpC5 "items" [.int 1, .int 2] [.int 1] rfl]
    rfl
  · rw [C5_thm cmpC5 "items" [.int 1, .int 2] [.int 1] rfl]
    rfl

/-! ## Claim C6: numeric tolerance with both percentage and absolute -/

/-- C6 (confirmed): under a `ToleranceConfig` with both `percentage` and
`absolute` set (and `percentage ≥ 0`, enforced by the model validators),
the effective tolerance is the larger of `|expected| * percentage / 100`
and `absolute`, with ties going to the percentage; the winning kind is
the reported label; and the field passes with `IN_TOLERANCE` iff
`|expected - actual| ≤ tolerance` (boundary inclusive), else fails with
`OUTSIDE_TOLERANCE`. -/
theorem C6_thm (cmp : Comparer) (path : String) (e a : Value) (p b : Rat)
    (hfc : getFieldConfig cmp path = some (.tol ⟨some p, some b⟩))
    (hp : 0 ≤ p) :
    compareNumericalWithTolerance cmp path e a =
      (if |numOf e - numOf a| ≤ max (|numOf e| * p / 100) b then
        ([⟨rootName path, true, .in_tolerance, e, a,
           "Within tolerance (" ++
             (if b ≤ |numOf e| * p / 100 then floatStr p ++ "%" else floatStr b ++ " absolute") ++
             ")",
           some (if b ≤ |numOf e| * p / 100 then floatStr p ++ "%" else floatStr b ++ " absolute"),
           none, none⟩], true)
      else
        ([⟨rootName path, false, .outside_tolerance, e, a,
           "Outside tolerance (" ++
             (if b ≤ |numOf e| * p / 100 then floatStr p ++ "%" else floatStr b ++ " absolute") ++
             "): difference " ++ fmt2 |numOf e - numOf a| ++ " > tolerance " ++
             fmt2 (max (|numOf e| * p / 100) b),
           some (if b ≤ |numOf e| * p / 100 then floatStr p ++ "%" else floatStr b ++ " absolute"),
           none, none⟩], false)) := by
  unfold compareNumericalWithTolerance
  rw [hfc]
  dsimp only []
  have habs : |numOf e * p / 100| = |numOf e| * p / 100 := by
    rw [abs_div, abs_mul, abs_of_nonneg hp]
    norm_num
  rw [habs]
  by_cases hcmp : b ≤ |numOf e| * p / 100
  · rw [if_pos hcmp, if_pos hcmp, max_eq_left hcmp]
  · rw [if_neg hcmp, if_neg hcmp, max_eq_right (le_of_not_le hcmp)]

/-- The comparer of the C6 witness: 10% or 5 absolute at path `cal`. -/
def cmpC6 : Comparer := ⟨[("cal", .tol ⟨some 10, some 5⟩)], ⟨false⟩⟩

/-- C6 (witness): `percentage=10`, `absolute=5`, `expected=200`,
`actual=220`: the percentage tolerance 20 beats 5, the difference is
exactly 20, and the boundary-inclusive check yields `IN_TOLERANCE` with
the percentage label. -/
theorem C6_witness :
    getFieldConfig cmpC6 "cal" = some (.tol ⟨some 10, some 5⟩) ∧ (0 : Rat) ≤ 10 ∧
    compareNumericalWithTolerance cmpC6 "cal" (.int 200) (.int 220) =
      ([⟨"cal", true, .in_tolerance, .int 200, .int 220,
         "Within tolerance (10.0%)", some "10.0%", none, none⟩], true) := by
  refine ⟨rfl, by norm_num, ?_⟩
  rw [C6_thm cmpC6 "cal" (.int 200) (.int 220) 10 5 rfl (by norm_num)]
  have h1 : ((5 : Rat) ≤ |numOf (.int 200)| * 10 / 100) := by
    simp [numOf, numVal]
    norm_num
  have h2 : |numOf (.int 200) - numOf (.int 220)| ≤ max (|numOf (.int 200)| * 10 / 100) 5 := by
    simp [numOf, numVal]
    norm_num
  rw [if_pos h2, if_pos h1]
  rfl

/-! ## Claim C7: `matches` is the conjunction of all `passed` flags -/

/-- C7 (confirmed): for every pair of inputs, the `FullComparisonResult`
returned by `compare` has `matches=true` iff every `FieldResult` in its
`fields` list has `passed=true`. -/
theorem C7_thm : ∀ (cmp : Comparer) (e a : Value),
    (cmp.compare e a).matches' = (cmp.compare e a).fields.all (fun f => f.passed) := by
  intro cmp e a
  exact compareValuesFuel_matches_all _ cmp "" e a

/-! ## Claim C8: ignored fields are never descended into -/

/-- C8 (confirmed): when the rule resolved at a path is a `FieldConfig`
with `ignore=true`, the comparison of that subtree emits exactly one
`FieldResult` — at that path, with status `IGNORED` and `passed=true` —
and nothing below it: the values are never descended into, whatever they
are. -/
theorem C8_thm (cmp : Comparer) (path : String) (e a : Value)
    (h : configIgnored (getFieldConfig cmp path) = true) :
    compareValues cmp path e a =
      ([⟨rootName path, true, .ignored, e, a, "Field configured to ignore",
         none, none, none⟩], true) := by
  rw [compareValues_eq]
  unfold compareBody
  simp only [h, if_true]

/-- The comparer of the C8 witness: `secret` is ignored. -/
def cmpC8 : Comparer := ⟨[("secret", .beh ⟨false, true, false⟩)], ⟨false⟩⟩

/-- C8 (witness): an ignored path holding a dict on one side and a
number on the other yields the single `IGNORED` entry (no descent, no
type mismatch). -/
theorem C8_witness :
    configIgnored (getFieldConfig cmpC8 "secret") = true ∧
    compareValues cmpC8 "secret" (.dict [("x", .int 1)]) (.int 5) =
      ([⟨"secret", true, .ignored, .dict [("x", .int 1)], .int 5,
         "Field configured to ignore", none, none, none⟩], true) :=
  ⟨rfl, C8_thm cmpC8 "secret" (.dict [("x", .int 1)]) (.int 5) rfl⟩

/-! ## Claim C9: repeated comparison is deterministic -/

/-- C9 (confirmed): calling `compare` twice on the same engine with the
same inputs yields field-for-field identical results, order included —
the engine's only state (`tolerances`, `options`) is read-only, the
field accumulator is per-call, and the modelled dict-key traversal order
(`unionKeys`) is a function of the inputs alone. -/
theorem C9_thm : ∀ (cmp : Comparer) (e a : Value),
    (compareTwice cmp e a).1.fields = (compareTwice cmp e a).2.fields ∧
    (compareTwice cmp e a).1 = (compareTwice cmp e a).2 :=
  fun _ _ _ => ⟨rfl, rfl⟩

/-! ## Claim C10: `passed` is determined by the status -/

/-- C10 (confirmed): every `FieldResult` produced by any `compare`
invocation has `passed=true` exactly when its status is one of
IDENTICAL, IN_TOLERANCE, IGNORED, OPTIONAL_MISSING (and `passed=false`
for the remaining statuses), and `OBJECT_MISSING` is never produced. -/
theorem C10_thm : ∀ (cmp : Comparer) (e a : Value) (f : FieldResult),
    f ∈ (cmp.compare e a).fields →
    (f.passed = passStatus f.status ∧ f.status ≠ ComparisonStatus.object_missing) := by
  intro cmp e a f hf
  exact compareValuesFuel_status _ cmp "" e a f hf

/-- An engine with no rules, for the C10 witness. -/
def cmpC10 : Comparer := ⟨[], ⟨false⟩⟩

/-- The single entry of the C10 witness comparison. -/
def entryC10 : FieldResult :=
  ⟨"root", false, .value_mismatch, .str "x", .str "y",
   "Value mismatch: expected x, got y", none, none, none⟩

/-- C10 (witness): the invariant evaluated on the one `VALUE_MISMATCH`
entry of a concrete failing comparison. -/
theorem C10_witness :
    entryC10 ∈ (cmpC10.compare (.str "x") (.str "y")).fields ∧
    (entryC10.passed = passStatus entryC10.status ∧
      entryC10.status ≠ ComparisonStatus.object_missing) :=
  ⟨List.Mem.head _, C10_thm cmpC10 (.str "x") (.str "y") entryC10 (List.Mem.head _)⟩

end PyObComp
